import Mathlib

set_option maxHeartbeats 1000000

/-!
Shallow embedding of the SPARC routines in src/orbitalElecDensInit.c and
src/bessel.c.  Doubles are modelled as exact rationals, C int counters as
integers, distributed arrays as total functions from indices to rationals
(writes touch only the index ranges the C loops touch).  External
collaborators that are not part of this repository (the LAPACK least-squares
solver, the seeded random generators, the magnetization-norm helper) are
passed in as function parameters.
-/

/-- State of the solver context: the fields of SPARC_OBJ that the three
source files read or write.  Array fields are total functions; the C arrays
occupy the index ranges the loops iterate over.  The two communicator fields
are reduced to the only fact the code consults: whether the process is in
the group (comm equal to MPI_COMM_NULL or not). -/
structure SPARC where
  dmcomm_phi_null : Bool
  dmcomm_null : Bool
  Nd_d : Nat
  n_atom : Nat
  elecgs_Count : Int
  StressCount : Int
  MDCount : Int
  MDFlag : Int
  RelaxFlag : Int
  CyclixFlag : Int
  spin_typ : Int
  FixRandSeed : Int
  isGammaPoint : Int
  MD_dt : Rat
  Relax_fac : Rat
  dV : Rat
  PosCharge : Rat
  xc_rhotol : Rat
  electronDens : Nat → Rat
  electronDens_at : Nat → Rat
  mag : Nat → Rat
  mag_at : Nat → Rat
  delectronDens : Nat → Rat
  delectronDens_0dt : Nat → Rat
  delectronDens_1dt : Nat → Rat
  delectronDens_2dt : Nat → Rat
  atom_pos : Nat → Rat
  atom_pos_nm : Nat → Rat
  atom_pos_0dt : Nat → Rat
  atom_pos_1dt : Nat → Rat
  atom_pos_2dt : Nat → Rat
  ion_vel : Nat → Rat
  d : Nat → Rat
  mvAtmConstraint : Nat → Int
  Intgwt_phi : Nat → Rat
  Nd_d_dmcomm : Nat
  Nspinor_spincomm : Nat
  Nband_bandcomm : Nat
  Nkpts_kptcomm : Nat
  Nd : Nat
  Nspinor : Nat
  Nstates : Nat
  kpt_start_indx : Nat
  band_start_indx : Nat
  spinor_start_indx : Nat
  Xorb : Nat → Rat
  Xorb_alloc : Bool
  Yorb_alloc : Bool
  Xorb_kpt : Nat → Rat × Rat
  Xorb_kpt_alloc : Bool
  Yorb_kpt_alloc : Bool

/-- Ring shift of the deviation history, oldest slot: the loop at
orbitalElecDensInit.c lines 124-128 sets delectronDens_2dt[nd] to the old
delectronDens_1dt[nd] for nd below Nd_d. -/
def shiftDev2 (s : SPARC) : Nat → Rat :=
  fun nd => if nd < s.Nd_d then s.delectronDens_1dt nd else s.delectronDens_2dt nd

/-- Ring shift of the deviation history, middle slot: delectronDens_1dt[nd]
receives the old delectronDens_0dt[nd]. -/
def shiftDev1 (s : SPARC) : Nat → Rat :=
  fun nd => if nd < s.Nd_d then s.delectronDens_0dt nd else s.delectronDens_1dt nd

/-- Ring shift of the deviation history, newest slot: delectronDens_0dt[nd]
receives electronDens[nd] minus electronDens_at[nd]. -/
def shiftDev0 (s : SPARC) : Nat → Rat :=
  fun nd => if nd < s.Nd_d then s.electronDens nd - s.electronDens_at nd
            else s.delectronDens_0dt nd

/-- Predicted next atomic positions atom_pos_nm after the branch at
orbitalElecDensInit.c lines 129-157: in MD mode the first eligible step
copies atom_pos, later steps add MD_dt times ion_vel; in relaxation mode the
first eligible step copies atom_pos, later steps add Relax_fac times the
search direction times the movable-atom mask.  The loops over atoms write
exactly the indices below 3 times n_atom. -/
def predictPos (s : SPARC) : Nat → Rat :=
  if s.MDFlag = 1 then
    fun ii => if ii < 3 * s.n_atom then
        (if s.MDCount = 1 then s.atom_pos ii
         else s.atom_pos_nm ii + s.MD_dt * s.ion_vel ii)
      else s.atom_pos_nm ii
  else if s.RelaxFlag = 1 then
    fun ii => if ii < 3 * s.n_atom then
        (if s.elecgs_Count - s.StressCount = 1 then s.atom_pos ii
         else s.atom_pos_nm ii + s.Relax_fac * s.d ii * (s.mvAtmConstraint ii : Rat))
      else s.atom_pos_nm ii
  else s.atom_pos_nm

/-- temp1 of the accumulation loop at lines 163-172: difference of the age-0
and age-1 position histories at flat coordinate ii. -/
def temp1v (s : SPARC) (ii : Nat) : Rat := s.atom_pos_0dt ii - s.atom_pos_1dt ii

/-- temp2 of the accumulation loop: difference of the age-1 and age-2
position histories at flat coordinate ii. -/
def temp2v (s : SPARC) (ii : Nat) : Rat := s.atom_pos_1dt ii - s.atom_pos_2dt ii

/-- temp3 of the accumulation loop: predicted position (atom_pos_nm as just
updated) minus the age-0 position history at flat coordinate ii. -/
def temp3v (s : SPARC) (ii : Nat) : Rat := predictPos s ii - s.atom_pos_0dt ii

/-- Entry FtF[0] accumulated over all 3 n_atom coordinates. -/
def FtF0 (s : SPARC) : Rat :=
  Finset.sum (Finset.range (3 * s.n_atom)) fun ii => temp1v s ii * temp1v s ii

/-- Entry FtF[1] accumulated over all 3 n_atom coordinates; the code copies
it into FtF[2] as well. -/
def FtF1 (s : SPARC) : Rat :=
  Finset.sum (Finset.range (3 * s.n_atom)) fun ii => temp1v s ii * temp2v s ii

/-- Entry FtF[3] accumulated over all 3 n_atom coordinates. -/
def FtF3 (s : SPARC) : Rat :=
  Finset.sum (Finset.range (3 * s.n_atom)) fun ii => temp2v s ii * temp2v s ii

/-- Entry Ftf[0] accumulated over all 3 n_atom coordinates. -/
def Ftf0 (s : SPARC) : Rat :=
  Finset.sum (Finset.range (3 * s.n_atom)) fun ii => temp1v s ii * temp3v s ii

/-- Entry Ftf[1] accumulated over all 3 n_atom coordinates. -/
def Ftf1 (s : SPARC) : Rat :=
  Finset.sum (Finset.range (3 * s.n_atom)) fun ii => temp2v s ii * temp3v s ii

/-- The 2 by 2 matrix handed to LAPACKE_dgelsd, in column-major order
(FtF[0], FtF[1], FtF[2], FtF[3]) with FtF[2] set equal to FtF[1]. -/
def FtFmat (s : SPARC) : Rat × Rat × Rat × Rat := (FtF0 s, FtF1 s, FtF1 s, FtF3 s)

/-- The right-hand-side 2-vector handed to LAPACKE_dgelsd. -/
def Ftfvec (s : SPARC) : Rat × Rat := (Ftf0 s, Ftf1 s)

/-- elecDensExtrapolation of orbitalElecDensInit.c lines 117-190.  The
least-squares solver (LAPACKE_dgelsd, an external collaborator) is the
parameter lsq; the code reads alpha from the first and beta from the second
component of the overwritten right-hand side.  A process outside dmcomm_phi
returns at once.  Otherwise: ring-shift the deviation history, predict the
next atomic positions, and once the net solve count is at least 3 build the
normal matrix and store the extrapolated deviation; finally ring-shift the
position history with the predicted position entering the age-0 slot. -/
def elecDensExtrapolation (lsq : Rat × Rat × Rat × Rat → Rat × Rat → Rat × Rat)
    (s : SPARC) : SPARC :=
  if s.dmcomm_phi_null then s else
  let d2 := shiftDev2 s
  let d1 := shiftDev1 s
  let d0 := shiftDev0 s
  let pnm := predictPos s
  let ddev :=
    if 3 ≤ s.elecgs_Count - s.StressCount then
      let ab := lsq (FtFmat s) (Ftfvec s)
      fun nd => if nd < s.Nd_d then
          (1 + ab.1) * d0 nd + (ab.2 - ab.1) * d1 nd - ab.2 * d2 nd
        else s.delectronDens nd
    else s.delectronDens
  { s with
    delectronDens_2dt := d2
    delectronDens_1dt := d1
    delectronDens_0dt := d0
    atom_pos_nm := pnm
    delectronDens := ddev
    atom_pos_2dt := fun ii => if ii < 3 * s.n_atom then s.atom_pos_1dt ii else s.atom_pos_2dt ii
    atom_pos_1dt := fun ii => if ii < 3 * s.n_atom then s.atom_pos_0dt ii else s.atom_pos_1dt ii
    atom_pos_0dt := fun ii => if ii < 3 * s.n_atom then pnm ii else s.atom_pos_0dt ii }

/-- C1: on a participating process, elecDensExtrapolation leaves the pending
deviation delectronDens untouched while fewer than 3 net solves have
accumulated, and once at least 3 have accumulated it stores, at every local
node, the combination (1+alpha) dev0 + (beta-alpha) dev1 - beta dev2 of the
freshly shifted deviation history, where (alpha, beta) is exactly the pair
returned by the least-squares solver on the matrix FtF and vector Ftf built
from the three position histories and the predicted position. -/
theorem C1_extrapolation_formula
    (lsq : Rat × Rat × Rat × Rat → Rat × Rat → Rat × Rat) (s : SPARC)
    (h : s.dmcomm_phi_null = false) :
    (s.elecgs_Count - s.StressCount < 3 →
      (elecDensExtrapolation lsq s).delectronDens = s.delectronDens) ∧
    (3 ≤ s.elecgs_Count - s.StressCount → ∀ nd, nd < s.Nd_d →
      (elecDensExtrapolation lsq s).delectronDens nd =
        (1 + (lsq (FtFmat s) (Ftfvec s)).1) *
            (elecDensExtrapolation lsq s).delectronDens_0dt nd
        + ((lsq (FtFmat s) (Ftfvec s)).2 - (lsq (FtFmat s) (Ftfvec s)).1) *
            (elecDensExtrapolation lsq s).delectronDens_1dt nd
        - (lsq (FtFmat s) (Ftfvec s)).2 *
            (elecDensExtrapolation lsq s).delectronDens_2dt nd) := by
  constructor
  · intro hlt
    simp [elecDensExtrapolation, h, not_le.mpr hlt]
  · intro hge nd hnd
    simp [elecDensExtrapolation, h, hge, hnd]

/-- C6: on a participating process, the predicted position stored in
atom_pos_nm follows the mode rules: in MD mode (MDFlag equal to 1) the first
eligible step (MDCount equal to 1) copies the current position and later
steps add MD_dt times the ionic velocity; in relaxation mode (MDFlag not 1,
RelaxFlag equal to 1) the first eligible step (net solve count equal to 1)
copies the current position and later steps add Relax_fac times the search
direction times the movable-atom mask. -/
theorem C6_position_prediction
    (lsq : Rat × Rat × Rat × Rat → Rat × Rat → Rat × Rat) (s : SPARC)
    (h : s.dmcomm_phi_null = false) :
    (s.MDFlag = 1 → ∀ ii, ii < 3 * s.n_atom →
      (elecDensExtrapolation lsq s).atom_pos_nm ii =
        if s.MDCount = 1 then s.atom_pos ii
        else s.atom_pos_nm ii + s.MD_dt * s.ion_vel ii) ∧
    (s.MDFlag ≠ 1 → s.RelaxFlag = 1 → ∀ ii, ii < 3 * s.n_atom →
      (elecDensExtrapolation lsq s).atom_pos_nm ii =
        if s.elecgs_Count - s.StressCount = 1 then s.atom_pos ii
        else s.atom_pos_nm ii + s.Relax_fac * s.d ii * (s.mvAtmConstraint ii : Rat)) := by
  constructor
  · intro hmd ii hii
    simp [elecDensExtrapolation, predictPos, h, hmd, hii]
  · intro hnmd hrel ii hii
    simp [elecDensExtrapolation, predictPos, h, hnmd, hrel, hii]

/-- Modelled from the spec: Calculate_diagonal_Density of electronDensity.c
is not part of this repository snapshot; the spec gives its per-node rule as
the up channel equal to (total plus magnetization) over 2. -/
def diagUp (tot m : Rat) : Rat := (tot + m) / 2

/-- Modelled from the spec: Calculate_diagonal_Density of electronDensity.c
is not part of this repository snapshot; the spec gives its per-node rule as
the down channel equal to (total minus magnetization) over 2. -/
def diagDn (tot m : Rat) : Rat := (tot - m) / 2

/-- Density staged for normalization in the non-first-step branch of
Init_electronDensity (orbitalElecDensInit.c lines 70-82): once at least 3
net solves have accumulated and the run is MD or relaxation, every local
node receives electronDens_at plus delectronDens, replaced by xc_rhotol when
the sum is negative; otherwise the electron density is left as staged by the
previous step. -/
def stagedDens (s : SPARC) : Nat → Rat :=
  if 3 ≤ s.elecgs_Count - s.StressCount ∧ (s.MDFlag = 1 ∨ s.RelaxFlag = 1) then
    fun i => if i < s.Nd_d then
        (if s.electronDens_at i + s.delectronDens i < 0 then s.xc_rhotol
         else s.electronDens_at i + s.delectronDens i)
      else s.electronDens i
  else s.electronDens

/-- Local contribution to the density integral (orbitalElecDensInit.c lines
85-95): per-node weights Intgwt_phi in the Cyclix case, a uniform volume
element dV otherwise. -/
def localIntegral (s : SPARC) (rho : Nat → Rat) : Rat :=
  if s.CyclixFlag ≠ 0 then
    Finset.sum (Finset.range s.Nd_d) fun i => rho i * s.Intgwt_phi i
  else (Finset.sum (Finset.range s.Nd_d) fun i => rho i) * s.dV

/-- Init_electronDensity of orbitalElecDensInit.c lines 35-110 for one
process.  The parameter magnorm stands for Calculate_Magnorm (a collaborator
outside this snapshot); remote stands for the contribution of the other
processes of dmcomm_phi to the MPI_Allreduce sum, so that the reduced
integral is the local integral plus remote.  The first net step copies the
atomic density and magnetization and snapshots the positions; later steps
stage the (possibly extrapolated and clamped) density, rescale it so that
the reduced integral matches PosCharge, and recompute the spin channels. -/
def Init_electronDensity (magnorm : Rat → Rat → Rat → Rat) (remote : Rat)
    (s : SPARC) : SPARC :=
  if s.dmcomm_phi_null then s else
  if s.elecgs_Count - s.StressCount = 0 then
    let dens1 : Nat → Rat := fun i => if i < s.Nd_d then s.electronDens_at i else s.electronDens i
    let mag1 : Nat → Rat :=
      if s.spin_typ = 1 then fun i => if i < s.Nd_d then s.mag_at i else s.mag i
      else if s.spin_typ = 2 then
        fun i => if i < s.Nd_d then
            magnorm (s.mag_at i) (s.mag_at (s.Nd_d + i)) (s.mag_at (2 * s.Nd_d + i))
          else if i < 4 * s.Nd_d then s.mag_at (i - s.Nd_d)
          else s.mag i
      else s.mag
    let densF : Nat → Rat :=
      if s.spin_typ = 1 ∨ s.spin_typ = 2 then
        fun j => if j < s.Nd_d then dens1 j
          else if j < 2 * s.Nd_d then diagUp (dens1 (j - s.Nd_d)) (mag1 (j - s.Nd_d))
          else if j < 3 * s.Nd_d then diagDn (dens1 (j - 2 * s.Nd_d)) (mag1 (j - 2 * s.Nd_d))
          else s.electronDens j
      else dens1
    let pos0 : Nat → Rat :=
      if s.MDFlag = 1 ∨ s.RelaxFlag = 1 then
        fun i => if i < 3 * s.n_atom then s.atom_pos i else s.atom_pos_0dt i
      else s.atom_pos_0dt
    { s with electronDens := densF, mag := mag1, atom_pos_0dt := pos0 }
  else
    let staged := stagedDens s
    let vscal := s.PosCharge / (localIntegral s staged + remote)
    let densS : Nat → Rat := fun i => if i < s.Nd_d then staged i * vscal else s.electronDens i
    let densF : Nat → Rat :=
      if s.spin_typ ≠ 0 then
        fun j => if j < s.Nd_d then densS j
          else if j < 2 * s.Nd_d then (densS (j - s.Nd_d) + s.mag (j - s.Nd_d)) / 2
          else if j < 3 * s.Nd_d then (densS (j - 2 * s.Nd_d) - s.mag (j - 2 * s.Nd_d)) / 2
          else s.electronDens j
      else densS
    { s with electronDens := densF }

/-- Reduced integral of the staged densities over a dmcomm_phi process
group: the value every process obtains from the MPI_Allreduce sum. -/
def groupIntegral (ps : List SPARC) : Rat :=
  (ps.map fun p => localIntegral p (stagedDens p)).sum

/-- One collective Init_electronDensity step over a dmcomm_phi process
group: every process runs the routine, with the remote contribution of each
process being the group integral minus its own local integral. -/
def runGroupNormalize (magnorm : Rat → Rat → Rat → Rat) (ps : List SPARC) : List SPARC :=
  ps.map fun p => Init_electronDensity magnorm (groupIntegral ps - localIntegral p (stagedDens p)) p

/-- Helper: structure update of electronDens keeps every other field. -/
theorem IeD_later_dens (magnorm : Rat → Rat → Rat → Rat) (remote : Rat) (s : SPARC)
    (h : s.dmcomm_phi_null = false) (hc : s.elecgs_Count - s.StressCount ≠ 0) :
    Init_electronDensity magnorm remote s =
      { s with electronDens :=
          (Init_electronDensity magnorm remote s).electronDens } := by
  simp only [Init_electronDensity, h, Bool.false_eq_true, if_false, hc]

/-- Helper: the total-channel value written by the later-step branch at a
local node is the staged value times the scale factor. -/
theorem IeD_later_total (magnorm : Rat → Rat → Rat → Rat) (remote : Rat) (s : SPARC)
    (h : s.dmcomm_phi_null = false) (hc : s.elecgs_Count - s.StressCount ≠ 0)
    (i : Nat) (hi : i < s.Nd_d) :
    (Init_electronDensity magnorm remote s).electronDens i =
      stagedDens s i * (s.PosCharge / (localIntegral s (stagedDens s) + remote)) := by
  by_cases hsp : s.spin_typ = 0 <;>
    simp [Init_electronDensity, h, hc, hsp, hi]

/-- Helper: the later-step branch leaves electronDens unchanged above the
spin channels, and above the total channel in the unpolarized case. -/
theorem IeD_later_frame_dens (magnorm : Rat → Rat → Rat → Rat) (remote : Rat) (s : SPARC)
    (h : s.dmcomm_phi_null = false) (hc : s.elecgs_Count - s.StressCount ≠ 0) :
    (s.spin_typ = 0 → ∀ j, s.Nd_d ≤ j →
      (Init_electronDensity magnorm remote s).electronDens j = s.electronDens j) ∧
    (∀ j, 3 * s.Nd_d ≤ j →
      (Init_electronDensity magnorm remote s).electronDens j = s.electronDens j) := by
  constructor
  · intro hsp j hj
    simp [Init_electronDensity, h, hc, hsp, not_lt.mpr hj]
  · intro j hj
    have h1 : ¬ j < s.Nd_d := by omega
    have h2 : ¬ j < 2 * s.Nd_d := by omega
    have h3 : ¬ j < 3 * s.Nd_d := by omega
    by_cases hsp : s.spin_typ = 0 <;>
      simp [Init_electronDensity, h, hc, hsp, h1, h2, h3]

/-- Helper: the local integral is linear in a per-node scale factor. -/
theorem localIntegral_smul (s : SPARC) (rho : Nat → Rat) (c : Rat) :
    localIntegral s (fun i => rho i * c) = localIntegral s rho * c := by
  unfold localIntegral
  by_cases hcy : s.CyclixFlag ≠ 0
  · rw [if_pos hcy, if_pos hcy, Finset.sum_mul]
    exact Finset.sum_congr rfl fun i _ => by ring
  · rw [if_neg hcy, if_neg hcy, ← Finset.sum_mul]
    ring

/-- Helper: the local integral only reads rho at indices below Nd_d. -/
theorem localIntegral_congr (s : SPARC) (rho rho2 : Nat → Rat)
    (h : ∀ i, i < s.Nd_d → rho i = rho2 i) :
    localIntegral s rho = localIntegral s rho2 := by
  unfold localIntegral
  have hsum1 : (Finset.sum (Finset.range s.Nd_d) fun i => rho i * s.Intgwt_phi i) =
      Finset.sum (Finset.range s.Nd_d) fun i => rho2 i * s.Intgwt_phi i :=
    Finset.sum_congr rfl fun i hi => by rw [h i (Finset.mem_range.mp hi)]
  have hsum2 : (Finset.sum (Finset.range s.Nd_d) fun i => rho i) =
      Finset.sum (Finset.range s.Nd_d) fun i => rho2 i :=
    Finset.sum_congr rfl fun i hi => h i (Finset.mem_range.mp hi)
  rw [hsum1, hsum2]

/-- Helper: per-process effect of the collective step on the local integral
of the total channel. -/
theorem IeD_local_integral (magnorm : Rat → Rat → Rat → Rat) (remote : Rat) (s : SPARC)
    (h : s.dmcomm_phi_null = false) (hc : s.elecgs_Count - s.StressCount ≠ 0) :
    localIntegral (Init_electronDensity magnorm remote s)
        (Init_electronDensity magnorm remote s).electronDens =
      localIntegral s (stagedDens s) *
        (s.PosCharge / (localIntegral s (stagedDens s) + remote)) := by
  have hCy : (Init_electronDensity magnorm remote s).CyclixFlag = s.CyclixFlag := by
    rw [IeD_later_dens magnorm remote s h hc]
  have hNd : (Init_electronDensity magnorm remote s).Nd_d = s.Nd_d := by
    rw [IeD_later_dens magnorm remote s h hc]
  have hw : (Init_electronDensity magnorm remote s).Intgwt_phi = s.Intgwt_phi := by
    rw [IeD_later_dens magnorm remote s h hc]
  have hdV : (Init_electronDensity magnorm remote s).dV = s.dV := by
    rw [IeD_later_dens magnorm remote s h hc]
  have hfields : localIntegral (Init_electronDensity magnorm remote s)
      (Init_electronDensity magnorm remote s).electronDens =
      localIntegral s (Init_electronDensity magnorm remote s).electronDens := by
    unfold localIntegral
    rw [hCy, hNd, hw, hdV]
  rw [hfields]
  rw [localIntegral_congr s _
    (fun i => stagedDens s i * (s.PosCharge / (localIntegral s (stagedDens s) + remote)))
    (fun i hi => IeD_later_total magnorm remote s h hc i hi)]
  exact localIntegral_smul s (stagedDens s) _

/-- C2: after the collective Init_electronDensity step on any step beyond
the first, the reduced volume integral of the total-density channel over the
dmcomm_phi group equals the configured target charge PosCharge exactly,
provided the pre-scaling reduced integral is nonzero, because every local
node is scaled by PosCharge divided by that integral. -/
theorem C2_normalization (magnorm : Rat → Rat → Rat → Rat) (ps : List SPARC) (Q : Rat)
    (hpart : ∀ p ∈ ps, p.dmcomm_phi_null = false)
    (hstep : ∀ p ∈ ps, 0 < p.elecgs_Count - p.StressCount)
    (hQ : ∀ p ∈ ps, p.PosCharge = Q)
    (hnz : groupIntegral ps ≠ 0) :
    ((runGroupNormalize magnorm ps).map fun q => localIntegral q q.electronDens).sum = Q := by
  unfold runGroupNormalize
  rw [List.map_map]
  have hmap : ps.map ((fun q => localIntegral q q.electronDens) ∘
      (fun p => Init_electronDensity magnorm (groupIntegral ps - localIntegral p (stagedDens p)) p)) =
      ps.map (fun p => localIntegral p (stagedDens p) * (Q / groupIntegral ps)) := by
    apply List.map_congr_left
    intro p hp
    have h1 := IeD_local_integral magnorm (groupIntegral ps - localIntegral p (stagedDens p)) p
      (hpart p hp) (by have := hstep p hp; omega)
    simp only [Function.comp_apply, h1, hQ p hp]
    congr 2
    ring
  rw [hmap, List.sum_map_mul_right]
  show groupIntegral ps * (Q / groupIntegral ps) = Q
  field_simp

/-- C3 counterexample state: a participating process in MD mode with at
least 3 net solves, whose atomic density plus pending deviation is exactly 0
at node 0: the clamp keeps the 0 (it only replaces strictly negative
values), so the staged and final density stay strictly below the positive
floor xc_rhotol. -/
def exC3 : SPARC where
  dmcomm_phi_null := false
  dmcomm_null := false
  Nd_d := 2
  n_atom := 1
  elecgs_Count := 3
  StressCount := 0
  MDCount := 2
  MDFlag := 1
  RelaxFlag := 0
  CyclixFlag := 0
  spin_typ := 0
  FixRandSeed := 0
  isGammaPoint := 1
  MD_dt := 0
  Relax_fac := 0
  dV := 1
  PosCharge := 1
  xc_rhotol := 1 / 4
  electronDens := fun _ => 0
  electronDens_at := fun i => if i = 0 then 0 else 1
  mag := fun _ => 0
  mag_at := fun _ => 0
  delectronDens := fun _ => 0
  delectronDens_0dt := fun _ => 0
  delectronDens_1dt := fun _ => 0
  delectronDens_2dt := fun _ => 0
  atom_pos := fun _ => 0
  atom_pos_nm := fun _ => 0
  atom_pos_0dt := fun _ => 0
  atom_pos_1dt := fun _ => 0
  atom_pos_2dt := fun _ => 0
  ion_vel := fun _ => 0
  d := fun _ => 0
  mvAtmConstraint := fun _ => 1
  Intgwt_phi := fun _ => 1
  Nd_d_dmcomm := 1
  Nspinor_spincomm := 1
  Nband_bandcomm := 1
  Nkpts_kptcomm := 1
  Nd := 1
  Nspinor := 1
  Nstates := 1
  kpt_start_indx := 0
  band_start_indx := 0
  spinor_start_indx := 0
  Xorb := fun _ => 0
  Xorb_alloc := false
  Yorb_alloc := false
  Xorb_kpt := fun _ => (0, 0)
  Xorb_kpt_alloc := false
  Yorb_kpt_alloc := false

/-- Trivial stand-in for the external magnetization-norm collaborator, used
only to instantiate theorems at concrete states. -/
def magnorm0 : Rat → Rat → Rat → Rat := fun _ _ _ => 0

/-- C3 counterexample: at exC3 all the conditions of the claim hold
(participating process, at least 3 net solves, MD mode, positive floor, a
nonempty local domain), the extrapolated deviation is applied, and yet the
density at node 0 after the clamp, and after the whole routine, is 0, which
is strictly below the floor xc_rhotol: the claim that no entry of the
resulting DensityField is below the floor is false on the code. -/
theorem C3_counterexample :
    exC3.dmcomm_phi_null = false ∧
    3 ≤ exC3.elecgs_Count - exC3.StressCount ∧
    exC3.MDFlag = 1 ∧
    0 < exC3.xc_rhotol ∧
    0 < exC3.Nd_d ∧
    stagedDens exC3 0 < exC3.xc_rhotol ∧
    (Init_electronDensity magnorm0 0 exC3).electronDens 0 < exC3.xc_rhotol := by
  have hstg : stagedDens exC3 0 = 0 := by
    norm_num [stagedDens, exC3]
  have hdens : (Init_electronDensity magnorm0 0 exC3).electronDens 0 = 0 := by
    rw [IeD_later_total magnorm0 0 exC3 rfl (by decide) 0 (by decide), hstg]
    ring
  refine ⟨rfl, by decide, rfl, by norm_num [exC3], by decide, ?_, ?_⟩
  · rw [hstg]; norm_num [exC3]
  · rw [hdens]; norm_num [exC3]

/-- C3 amended: after the extrapolated deviation is applied (at least 3 net
solves, MD or relaxation mode), any node whose sum electronDens_at plus
delectronDens is negative is replaced by exactly xc_rhotol, any node whose
sum is nonnegative keeps that sum unchanged, and hence (for a nonnegative
floor) no node of the staged density is negative; nodes whose sum lies in
the interval from 0 up to xc_rhotol stay below the floor. -/
theorem C3_clamp_amended (s : SPARC)
    (hge : 3 ≤ s.elecgs_Count - s.StressCount)
    (hmode : s.MDFlag = 1 ∨ s.RelaxFlag = 1)
    (htol : 0 ≤ s.xc_rhotol) (i : Nat) (hi : i < s.Nd_d) :
    (s.electronDens_at i + s.delectronDens i < 0 → stagedDens s i = s.xc_rhotol) ∧
    (0 ≤ s.electronDens_at i + s.delectronDens i →
      stagedDens s i = s.electronDens_at i + s.delectronDens i) ∧
    0 ≤ stagedDens s i := by
  have hcond : 3 ≤ s.elecgs_Count - s.StressCount ∧ (s.MDFlag = 1 ∨ s.RelaxFlag = 1) :=
    ⟨hge, hmode⟩
  refine ⟨fun hneg => ?_, fun hpos => ?_, ?_⟩
  · simp [stagedDens, hcond, hi, hneg]
  · simp [stagedDens, hcond, hi, not_lt.mpr hpos]
  · by_cases hneg : s.electronDens_at i + s.delectronDens i < 0
    · simp [stagedDens, hcond, hi, hneg, htol]
    · simp only [stagedDens, hcond, and_self, if_true, hi, hneg, if_false]
      exact not_lt.mp hneg

/-- C5: in any spin-polarized configuration, on any step beyond the first on
a participating process, the up and down channels written by
Init_electronDensity satisfy up plus down equal to the total channel and up
minus down equal to the magnetization, exactly, at every local node. -/
theorem C5_spin_exact (magnorm : Rat → Rat → Rat → Rat) (remote : Rat) (s : SPARC)
    (h : s.dmcomm_phi_null = false) (hc : s.elecgs_Count - s.StressCount ≠ 0)
    (hsp : s.spin_typ ≠ 0) (i : Nat) (hi : i < s.Nd_d) :
    (Init_electronDensity magnorm remote s).electronDens (s.Nd_d + i)
      + (Init_electronDensity magnorm remote s).electronDens (2 * s.Nd_d + i)
      = (Init_electronDensity magnorm remote s).electronDens i ∧
    (Init_electronDensity magnorm remote s).electronDens (s.Nd_d + i)
      - (Init_electronDensity magnorm remote s).electronDens (2 * s.Nd_d + i)
      = s.mag i := by
  have h1 : ¬ s.Nd_d + i < s.Nd_d := by omega
  have h2 : s.Nd_d + i < 2 * s.Nd_d := by omega
  have h3 : ¬ 2 * s.Nd_d + i < s.Nd_d := by omega
  have h4 : ¬ 2 * s.Nd_d + i < 2 * s.Nd_d := by omega
  have h5 : 2 * s.Nd_d + i < 3 * s.Nd_d := by omega
  have h6 : s.Nd_d + i - s.Nd_d = i := by omega
  have h7 : 2 * s.Nd_d + i - 2 * s.Nd_d = i := by omega
  constructor <;>
    · simp only [Init_electronDensity, h, Bool.false_eq_true, if_false, hc, hsp,
        ne_eq, not_false_eq_true, if_true, h1, h2, h3, h4, h5, h6, h7, hi]
      ring

/-- C9: on any step beyond the first, Init_electronDensity on a
participating process writes only the electronDens array: magnetization,
atomic reference density, pending deviation, all deviation histories, and
all position arrays are unchanged; the write stays inside the density
channels (one channel unpolarized, three channels polarized); and when
neither MDFlag nor RelaxFlag is 1 the pending deviation is not applied, the
total channel being exactly the staged density rescaled by PosCharge over
the reduced integral. -/
theorem C9_frame_later_step (magnorm : Rat → Rat → Rat → Rat) (remote : Rat) (s : SPARC)
    (h : s.dmcomm_phi_null = false) (hc : s.elecgs_Count - s.StressCount ≠ 0) :
    (Init_electronDensity magnorm remote s).mag = s.mag ∧
    (Init_electronDensity magnorm remote s).electronDens_at = s.electronDens_at ∧
    (Init_electronDensity magnorm remote s).delectronDens = s.delectronDens ∧
    (Init_electronDensity magnorm remote s).delectronDens_0dt = s.delectronDens_0dt ∧
    (Init_electronDensity magnorm remote s).delectronDens_1dt = s.delectronDens_1dt ∧
    (Init_electronDensity magnorm remote s).delectronDens_2dt = s.delectronDens_2dt ∧
    (Init_electronDensity magnorm remote s).atom_pos = s.atom_pos ∧
    (Init_electronDensity magnorm remote s).atom_pos_nm = s.atom_pos_nm ∧
    (Init_electronDensity magnorm remote s).atom_pos_0dt = s.atom_pos_0dt ∧
    (Init_electronDensity magnorm remote s).atom_pos_1dt = s.atom_pos_1dt ∧
    (Init_electronDensity magnorm remote s).atom_pos_2dt = s.atom_pos_2dt ∧
    (s.spin_typ = 0 → ∀ j, s.Nd_d ≤ j →
      (Init_electronDensity magnorm remote s).electronDens j = s.electronDens j) ∧
    (∀ j, 3 * s.Nd_d ≤ j →
      (Init_electronDensity magnorm remote s).electronDens j = s.electronDens j) ∧
    (s.MDFlag ≠ 1 → s.RelaxFlag ≠ 1 → ∀ i, i < s.Nd_d →
      (Init_electronDensity magnorm remote s).electronDens i =
        s.electronDens i * (s.PosCharge / (localIntegral s s.electronDens + remote))) := by
  have hupd := IeD_later_dens magnorm remote s h hc
  have hframe := IeD_later_frame_dens magnorm remote s h hc
  have hstage : (s.MDFlag ≠ 1 → s.RelaxFlag ≠ 1 → stagedDens s = s.electronDens) := by
    intro hm hr
    simp [stagedDens, hm, hr]
  refine ⟨?_, ?_, ?_, ?_, ?_, ?_, ?_, ?_, ?_, ?_, ?_, hframe.1, hframe.2, ?_⟩
  · rw [hupd]
  · rw [hupd]
  · rw [hupd]
  · rw [hupd]
  · rw [hupd]
  · rw [hupd]
  · rw [hupd]
  · rw [hupd]
  · rw [hupd]
  · rw [hupd]
  · rw [hupd]
  · intro hm hr i hi
    rw [IeD_later_total magnorm remote s h hc i hi, hstage hm hr]

/-- C8: a process outside the dmcomm_phi group returns from
elecDensExtrapolation immediately, with the whole state unchanged: no
deviation history, position history, predicted position, or pending
deviation is written. -/
theorem C8_idle_process_noop
    (lsq : Rat × Rat × Rat × Rat → Rat × Rat → Rat × Rat) (s : SPARC)
    (h : s.dmcomm_phi_null = true) :
    elecDensExtrapolation lsq s = s := by
  simp [elecDensExtrapolation, h]

/-- Iterate a loop body for indices 0 up to m minus 1, in increasing order:
the translation of a for loop writing through an accumulator. -/
def iterUp {A : Type} (f : Nat → A → A) : Nat → A → A
  | 0, a => a
  | Nat.succ m, a => f m (iterUp f m a)

/-- Effect of one call to the seeded random generator on a buffer: the len
entries starting at base receive the generator values for the given seed,
everything else is untouched.  Modelled from the spec: SeededRandVec and
SeededRandVec_complex of tools.c are not part of this snapshot; the spec
states they deterministically fill the local block from the global offset
and grid coordinates alone. -/
def fillBlock {A : Type} (g : Nat → A) (base len : Nat) (buf : Nat → A) : Nat → A :=
  fun j => if base ≤ j ∧ j < base + len then g (j - base) else buf j

/-- A loop of m block fills with a common stride: iteration i fills the len
entries starting at base plus i times stride len, with contents c i. -/
def strideFill {A : Type} (c : Nat → Nat → A) (base len m : Nat) (buf : Nat → A) : Nat → A :=
  iterUp (fun i b => fillBlock (c i) (base + i * len) len b) m buf

/-- Grid size times spinor count, Ndsp of Init_orbital. -/
def Ndsp (s : SPARC) : Nat := s.Nd * s.Nspinor

/-- Local node count times local spinor count, DMndsp of Init_orbital. -/
def DMndsp (s : SPARC) : Nat := s.Nd_d_dmcomm * s.Nspinor_spincomm

/-- Local size of one k-point block, size_k of Init_orbital. -/
def sizek (s : SPARC) : Nat := DMndsp s * s.Nband_bandcomm

/-- Global seed offset shift_g of the k-point branch of Init_orbital:
kg times size_kg plus ng times Ndsp plus spinorg times Nd, with the global
indices obtained by adding the partition start offsets. -/
def shiftg (s : SPARC) (k n sp : Nat) : Nat :=
  (s.kpt_start_indx + k) * (Ndsp s * s.Nstates)
    + (s.band_start_indx + n) * Ndsp s + (s.spinor_start_indx + sp) * s.Nd

/-- Global seed offset of the gamma-point branch of Init_orbital: ng times
Ndsp plus spinorg times Nd. -/
def shiftgGamma (s : SPARC) (n sp : Nat) : Nat :=
  (s.band_start_indx + n) * Ndsp s + (s.spinor_start_indx + sp) * s.Nd

/-- The spinor loop of the seeded k-point branch for fixed k and n: fills
the Nspinor_spincomm consecutive blocks of Nd_d_dmcomm entries starting at
k times size_k plus n times DMndsp. -/
def fillBandBlock (gen : Nat → Nat → Rat × Rat) (s : SPARC) (k n : Nat)
    (buf : Nat → Rat × Rat) : Nat → Rat × Rat :=
  strideFill (fun sp => gen (shiftg s k n sp)) (k * sizek s + n * DMndsp s)
    s.Nd_d_dmcomm s.Nspinor_spincomm buf

/-- The band loop of the seeded k-point branch for fixed k. -/
def fillKptBlock (gen : Nat → Nat → Rat × Rat) (s : SPARC) (k : Nat)
    (buf : Nat → Rat × Rat) : Nat → Rat × Rat :=
  iterUp (fun n b => fillBandBlock gen s k n b) s.Nband_bandcomm buf

/-- The k-point loop of the seeded k-point branch of Init_orbital. -/
def fillAllKpt (gen : Nat → Nat → Rat × Rat) (s : SPARC)
    (buf : Nat → Rat × Rat) : Nat → Rat × Rat :=
  iterUp (fun k b => fillKptBlock gen s k b) s.Nkpts_kptcomm buf

/-- The band and spinor loops of the seeded gamma-point branch of
Init_orbital. -/
def fillGamma (gen : Nat → Nat → Rat) (s : SPARC) (buf : Nat → Rat) : Nat → Rat :=
  iterUp (fun n b =>
      strideFill (fun sp => gen (shiftgGamma s n sp)) (n * DMndsp s)
        s.Nd_d_dmcomm s.Nspinor_spincomm b)
    s.Nband_bandcomm buf

/-- Init_orbital of orbitalElecDensInit.c lines 196-297.  The external
generators are parameters: genR and genC stand for SeededRandVec and
SeededRandVec_complex (value determined by seed offset and node), prngR and
prngC stand for SetRandMat and SetRandMat_complex (the process-local stream,
modelled from the spec as one sequential fill).  A process outside dmcomm
returns at once; on the first structural step only, the orbital arrays are
allocated (freshly, starting from a zero buffer standing for uninitialized
memory) and filled; on every later step nothing happens. -/
def Init_orbital (genR : Nat → Nat → Rat) (genC : Nat → Nat → Rat × Rat)
    (prngR : Nat → Rat) (prngC : Nat → Rat × Rat) (s : SPARC) : SPARC :=
  if s.dmcomm_null then s else
  if s.elecgs_Count = 0 then
    if s.isGammaPoint ≠ 0 then
      let Xnew : Nat → Rat :=
        if s.FixRandSeed = 1 then fillGamma genR s (fun _ => 0)
        else fun j => if j < DMndsp s * s.Nband_bandcomm then prngR j else 0
      { s with Xorb := Xnew, Xorb_alloc := true, Yorb_alloc := true }
    else
      let Xnew : Nat → Rat × Rat :=
        if s.FixRandSeed = 1 then fillAllKpt genC s (fun _ => (0, 0))
        else fun j => if j < sizek s * s.Nkpts_kptcomm then prngC j else (0, 0)
      { s with Xorb_kpt := Xnew, Xorb_kpt_alloc := true, Yorb_kpt_alloc := true }
  else s

/-- Helper: a stride loop leaves every index outside its total range
untouched. -/
theorem strideFill_outside {A : Type} (c : Nat → Nat → A) (base len : Nat)
    (m : Nat) (buf : Nat → A) (j : Nat) (hj : j < base ∨ base + m * len ≤ j) :
    strideFill c base len m buf j = buf j := by
  induction m with
  | zero => rfl
  | succ m ih =>
    show fillBlock (c m) (base + m * len) len (strideFill c base len m buf) j = buf j
    have hout : ¬ (base + m * len ≤ j ∧ j < base + m * len + len) := by
      rcases hj with hlt | hge
      · intro hcon
        omega
      · intro hcon
        have : base + (m + 1) * len = base + m * len + len := by ring
        omega
    rw [fillBlock, if_neg hout]
    apply ih
    rcases hj with hlt | hge
    · exact Or.inl hlt
    · right
      have : base + m * len ≤ base + (m + 1) * len := by
        have : m * len ≤ (m + 1) * len := Nat.mul_le_mul_right len (Nat.le_succ m)
        omega
      omega

/-- Helper: a stride loop writes c i o at offset o of its i-th block. -/
theorem strideFill_value {A : Type} (c : Nat → Nat → A) (base len : Nat)
    (m : Nat) (buf : Nat → A) (i o : Nat) (him : i < m) (ho : o < len) :
    strideFill c base len m buf (base + i * len + o) = c i o := by
  induction m with
  | zero => omega
  | succ m ih =>
    show fillBlock (c m) (base + m * len) len (strideFill c base len m buf)
        (base + i * len + o) = c i o
    by_cases hi : i = m
    · subst hi
      have hin : base + i * len ≤ base + i * len + o ∧
          base + i * len + o < base + i * len + len := by omega
      rw [fillBlock, if_pos hin]
      congr 1
      omega
    · have him2 : i < m := by omega
      have h1 : i * len + len ≤ m * len := by
        have h2 : (i + 1) * len ≤ m * len := Nat.mul_le_mul_right len him2
        rw [Nat.add_mul, Nat.one_mul] at h2
        exact h2
      have hout : ¬ (base + m * len ≤ base + i * len + o ∧
          base + i * len + o < base + m * len + len) := by omega
      rw [fillBlock, if_neg hout]
      exact ih him2

/-- Helper: strict block bound, with the block count on the right factor:
from a strictly smaller block index and an in-block offset, a strict bound
on the flat index. -/
theorem block_bound (a b r L : Nat) (hab : a < b) (hr : r < L) :
    a * L + r < b * L := by
  have h1 : (a + 1) * L ≤ b * L := Nat.mul_le_mul_right L hab
  rw [Nat.add_mul, Nat.one_mul] at h1
  omega

/-- Helper: the spinor loop for fixed k and n only writes inside the band
block of DMndsp entries starting at k times size_k plus n times DMndsp. -/
theorem fillBandBlock_outside (gen : Nat → Nat → Rat × Rat) (s : SPARC) (k n : Nat)
    (buf : Nat → Rat × Rat) (j : Nat)
    (hj : j < k * sizek s + n * DMndsp s ∨ k * sizek s + n * DMndsp s + DMndsp s ≤ j) :
    fillBandBlock gen s k n buf j = buf j := by
  unfold fillBandBlock
  apply strideFill_outside
  have hcov : s.Nspinor_spincomm * s.Nd_d_dmcomm = DMndsp s := by
    unfold DMndsp
    ring
  rcases hj with hlt | hge
  · exact Or.inl hlt
  · right
    omega

/-- Helper: the spinor loop writes the generator value of its seed at every
in-block offset. -/
theorem fillBandBlock_value (gen : Nat → Nat → Rat × Rat) (s : SPARC) (k n : Nat)
    (buf : Nat → Rat × Rat) (sp o : Nat)
    (hsp : sp < s.Nspinor_spincomm) (ho : o < s.Nd_d_dmcomm) :
    fillBandBlock gen s k n buf
        (k * sizek s + n * DMndsp s + sp * s.Nd_d_dmcomm + o) =
      gen (shiftg s k n sp) o := by
  unfold fillBandBlock
  exact strideFill_value _ _ _ _ _ sp o hsp ho

/-- Helper: the band loop for fixed k only writes inside the k-point block
of size_k entries starting at k times size_k. -/
theorem fillKptBlock_outside (gen : Nat → Nat → Rat × Rat) (s : SPARC) (k : Nat)
    (buf : Nat → Rat × Rat) (j : Nat)
    (hj : j < k * sizek s ∨ k * sizek s + sizek s ≤ j) :
    fillKptBlock gen s k buf j = buf j := by
  unfold fillKptBlock
  have hgen : ∀ t, t ≤ s.Nband_bandcomm →
      iterUp (fun n b => fillBandBlock gen s k n b) t buf j = buf j := by
    intro t ht
    induction t with
    | zero => rfl
    | succ t ih =>
      show fillBandBlock gen s k t
          (iterUp (fun n b => fillBandBlock gen s k n b) t buf) j =
        buf j
      rw [fillBandBlock_outside gen s k t _ j ?side]
      · exact ih (by omega)
      case side =>
        rcases hj with hlt | hge
        · left
          omega
        · right
          have h1 : (t + 1) * DMndsp s ≤ s.Nband_bandcomm * DMndsp s :=
            Nat.mul_le_mul_right (DMndsp s) ht
        
          have h2 : s.Nband_bandcomm * DMndsp s = sizek s := by
            unfold sizek
            ring
          rw [Nat.add_mul, Nat.one_mul] at h1
          omega
  exact hgen s.Nband_bandcomm (Nat.le_refl _)

/-- Helper: the band loop writes the generator value of the seed of every
in-range band and spinor at every in-block offset. -/
theorem fillKptBlock_value (gen : Nat → Nat → Rat × Rat) (s : SPARC) (k : Nat)
    (buf : Nat → Rat × Rat) (n sp o : Nat)
    (hn : n < s.Nband_bandcomm) (hsp : sp < s.Nspinor_spincomm)
    (ho : o < s.Nd_d_dmcomm) :
    fillKptBlock gen s k buf
        (k * sizek s + n * DMndsp s + sp * s.Nd_d_dmcomm + o) =
      gen (shiftg s k n sp) o := by
  unfold fillKptBlock
  have hro : sp * s.Nd_d_dmcomm + o < DMndsp s := by
    have := block_bound sp s.Nspinor_spincomm o s.Nd_d_dmcomm hsp ho
    have hcov : s.Nspinor_spincomm * s.Nd_d_dmcomm = DMndsp s := by
      unfold DMndsp
      ring
    omega
  have hgen : ∀ t, n < t → t ≤ s.Nband_bandcomm →
      iterUp (fun n2 b => fillBandBlock gen s k n2 b) t buf
          (k * sizek s + n * DMndsp s + sp * s.Nd_d_dmcomm + o) =
        gen (shiftg s k n sp) o := by
    intro t hnt ht
    induction t with
    | zero => omega
    | succ t ih =>
      show fillBandBlock gen s k t
          (iterUp (fun n2 b => fillBandBlock gen s k n2 b) t buf)
          (k * sizek s + n * DMndsp s + sp * s.Nd_d_dmcomm + o) =
        gen (shiftg s k n sp) o
      by_cases hn2 : n = t
      · subst hn2
        exact fillBandBlock_value gen s k n _ sp o hsp ho
      · have hnt2 : n < t := by omega
        rw [fillBandBlock_outside gen s k t _ _ ?side]
        · exact ih hnt2 (by omega)
        case side =>
          left
          have := block_bound n t (sp * s.Nd_d_dmcomm + o) (DMndsp s) hnt2 hro
          omega
  exact hgen s.Nband_bandcomm hn (Nat.le_refl _)

/-- Helper: the full k-point loop writes the generator value of the seed of
every in-range k-point, band and spinor at every in-block offset. -/
theorem fillAllKpt_value (gen : Nat → Nat → Rat × Rat) (s : SPARC)
    (buf : Nat → Rat × Rat) (k n sp o : Nat)
    (hk : k < s.Nkpts_kptcomm) (hn : n < s.Nband_bandcomm)
    (hsp : sp < s.Nspinor_spincomm) (ho : o < s.Nd_d_dmcomm) :
    fillAllKpt gen s buf
        (k * sizek s + n * DMndsp s + sp * s.Nd_d_dmcomm + o) =
      gen (shiftg s k n sp) o := by
  unfold fillAllKpt
  have hro : n * DMndsp s + (sp * s.Nd_d_dmcomm + o) < sizek s := by
    have h1 : sp * s.Nd_d_dmcomm + o < DMndsp s := by
      have := block_bound sp s.Nspinor_spincomm o s.Nd_d_dmcomm hsp ho
      have hcov : s.Nspinor_spincomm * s.Nd_d_dmcomm = DMndsp s := by
        unfold DMndsp
        ring
      omega
    have h2 := block_bound n s.Nband_bandcomm (sp * s.Nd_d_dmcomm + o) (DMndsp s) hn h1
    have h3 : s.Nband_bandcomm * DMndsp s = sizek s := by
      unfold sizek
      ring
    omega
  have hgen : ∀ t, k < t → t ≤ s.Nkpts_kptcomm →
      iterUp (fun k2 b => fillKptBlock gen s k2 b) t buf
          (k * sizek s + n * DMndsp s + sp * s.Nd_d_dmcomm + o) =
        gen (shiftg s k n sp) o := by
    intro t hkt ht
    induction t with
    | zero => omega
    | succ t ih =>
      show fillKptBlock gen s t
          (iterUp (fun k2 b => fillKptBlock gen s k2 b) t buf)
          (k * sizek s + n * DMndsp s + sp * s.Nd_d_dmcomm + o) =
        gen (shiftg s k n sp) o
      by_cases hk2 : k = t
      · subst hk2
        exact fillKptBlock_value gen s k _ n sp o hn hsp ho
      · have hkt2 : k < t := by omega
        rw [fillKptBlock_outside gen s t _ _ ?side]
        · exact ih hkt2 (by omega)
        case side =>
          left
          have := block_bound k t (n * DMndsp s + (sp * s.Nd_d_dmcomm + o)) (sizek s) hkt2 hro
          omega
  exact hgen s.Nkpts_kptcomm hk (Nat.le_refl _)

/-- C7: on a participating process, Init_orbital allocates the orbital
arrays exactly when elecgs_Count is 0 (Xorb and Yorb in the gamma-point
case, Xorb_kpt and Yorb_kpt otherwise), and on every call with a nonzero
elecgs_Count it performs no allocation and no write at all: the state is
returned unchanged, so the orbital set is never reallocated after the first
structural step. -/
theorem C7_alloc_once (genR : Nat → Nat → Rat) (genC : Nat → Nat → Rat × Rat)
    (prngR : Nat → Rat) (prngC : Nat → Rat × Rat) (s : SPARC)
    (h : s.dmcomm_null = false) :
    (s.elecgs_Count ≠ 0 → Init_orbital genR genC prngR prngC s = s) ∧
    (s.elecgs_Count = 0 → s.isGammaPoint ≠ 0 →
      (Init_orbital genR genC prngR prngC s).Xorb_alloc = true ∧
      (Init_orbital genR genC prngR prngC s).Yorb_alloc = true ∧
      (Init_orbital genR genC prngR prngC s).Xorb_kpt_alloc = s.Xorb_kpt_alloc ∧
      (Init_orbital genR genC prngR prngC s).Yorb_kpt_alloc = s.Yorb_kpt_alloc) ∧
    (s.elecgs_Count = 0 → s.isGammaPoint = 0 →
      (Init_orbital genR genC prngR prngC s).Xorb_kpt_alloc = true ∧
      (Init_orbital genR genC prngR prngC s).Yorb_kpt_alloc = true ∧
      (Init_orbital genR genC prngR prngC s).Xorb_alloc = s.Xorb_alloc ∧
      (Init_orbital genR genC prngR prngC s).Yorb_alloc = s.Yorb_alloc) := by
  refine ⟨fun hc => ?_, fun hc hg => ?_, fun hc hg => ?_⟩
  · simp [Init_orbital, h, hc]
  · simp [Init_orbital, h, hc, hg]
  · simp [Init_orbital, h, hc, hg]

/-- C4 counterexample state: a participating process at the first
structural step of a non-gamma-point run with the seeded mode on, two local
k-points (which are also global k-points 0 and 1), one band, one spinor and
one local grid node. -/
def exC4 : SPARC where
  dmcomm_phi_null := false
  dmcomm_null := false
  Nd_d := 1
  n_atom := 1
  elecgs_Count := 0
  StressCount := 0
  MDCount := 0
  MDFlag := 0
  RelaxFlag := 0
  CyclixFlag := 0
  spin_typ := 0
  FixRandSeed := 1
  isGammaPoint := 0
  MD_dt := 0
  Relax_fac := 0
  dV := 1
  PosCharge := 1
  xc_rhotol := 0
  electronDens := fun _ => 0
  electronDens_at := fun _ => 0
  mag := fun _ => 0
  mag_at := fun _ => 0
  delectronDens := fun _ => 0
  delectronDens_0dt := fun _ => 0
  delectronDens_1dt := fun _ => 0
  delectronDens_2dt := fun _ => 0
  atom_pos := fun _ => 0
  atom_pos_nm := fun _ => 0
  atom_pos_0dt := fun _ => 0
  atom_pos_1dt := fun _ => 0
  atom_pos_2dt := fun _ => 0
  ion_vel := fun _ => 0
  d := fun _ => 0
  mvAtmConstraint := fun _ => 1
  Intgwt_phi := fun _ => 1
  Nd_d_dmcomm := 1
  Nspinor_spincomm := 1
  Nband_bandcomm := 1
  Nkpts_kptcomm := 2
  Nd := 1
  Nspinor := 1
  Nstates := 1
  kpt_start_indx := 0
  band_start_indx := 0
  spinor_start_indx := 0
  Xorb := fun _ => 0
  Xorb_alloc := false
  Yorb_alloc := false
  Xorb_kpt := fun _ => (0, 0)
  Xorb_kpt_alloc := false
  Yorb_kpt_alloc := false

/-- A deterministic in-range seeded generator (all values in the interval
from minus one half up to one half) whose output depends on the seed
offset: seed 0 gives 0, any other seed gives one quarter. -/
def genC4 : Nat → Nat → Rat × Rat := fun off _ => (if off = 0 then 0 else 1 / 4, 0)

/-- Trivial stand-in for the real seeded generator, used only to
instantiate theorems at concrete states. -/
def genR0 : Nat → Nat → Rat := fun _ _ => 0

/-- Trivial stand-in for the complex seeded generator. -/
def genC0 : Nat → Nat → Rat × Rat := fun _ _ => (0, 0)

/-- Trivial stand-in for the process-local real random stream. -/
def prngR0 : Nat → Rat := fun _ => 0

/-- Trivial stand-in for the process-local complex random stream. -/
def prngC0 : Nat → Rat × Rat := fun _ => (0, 0)

/-- Trivial stand-in for the external least-squares solver, used only to
instantiate theorems at concrete states. -/
def lsq0 : Rat × Rat × Rat × Rat → Rat × Rat → Rat × Rat := fun _ _ => (0, 0)

/-- C4 counterexample: at the first step of a non-gamma-point run in the
seeded mode, with a deterministic in-range generator, k-points 0 and 1
receive different coefficients at the same band, spinor and node, because
the seed offset handed to the generator contains the global k-point index:
the claim that every k-point receives the same initial pattern is false on
the code. -/
theorem C4_counterexample :
    exC4.dmcomm_null = false ∧ exC4.elecgs_Count = 0 ∧ exC4.isGammaPoint = 0 ∧
    exC4.FixRandSeed = 1 ∧ 1 < exC4.Nkpts_kptcomm ∧
    0 < exC4.Nband_bandcomm ∧ 0 < exC4.Nspinor_spincomm ∧ 0 < exC4.Nd_d_dmcomm ∧
    (Init_orbital genR0 genC4 prngR0 prngC0 exC4).Xorb_kpt
        (0 * sizek exC4 + 0 * DMndsp exC4 + 0 * exC4.Nd_d_dmcomm + 0) ≠
      (Init_orbital genR0 genC4 prngR0 prngC0 exC4).Xorb_kpt
        (1 * sizek exC4 + 0 * DMndsp exC4 + 0 * exC4.Nd_d_dmcomm + 0) := by
  have hX : (Init_orbital genR0 genC4 prngR0 prngC0 exC4).Xorb_kpt =
      fillAllKpt genC4 exC4 (fun _ => (0, 0)) := by
    simp [Init_orbital, exC4]
  have h0 : fillAllKpt genC4 exC4 (fun _ => (0, 0))
      (0 * sizek exC4 + 0 * DMndsp exC4 + 0 * exC4.Nd_d_dmcomm + 0) =
      genC4 (shiftg exC4 0 0 0) 0 :=
    fillAllKpt_value genC4 exC4 _ 0 0 0 0 (by decide) (by decide) (by decide) (by decide)
  have h1 : fillAllKpt genC4 exC4 (fun _ => (0, 0))
      (1 * sizek exC4 + 0 * DMndsp exC4 + 0 * exC4.Nd_d_dmcomm + 0) =
      genC4 (shiftg exC4 1 0 0) 0 :=
    fillAllKpt_value genC4 exC4 _ 1 0 0 0 (by decide) (by decide) (by decide) (by decide)
  have hs0 : shiftg exC4 0 0 0 = 0 := by decide
  have hs1 : shiftg exC4 1 0 0 = 1 := by decide
  refine ⟨rfl, rfl, rfl, rfl, by decide, by decide, by decide, by decide, ?_⟩
  rw [hX, h0, h1, hs0, hs1]
  intro hcon
  have hfst := congrArg Prod.fst hcon
  norm_num [genC4] at hfst

/-- C4 amended: at the first structural step of a non-gamma-point run in
the seeded mode, the coefficient stored in Xorb_kpt at local k-point k,
band n, spinor sp and node o equals the generator value for the seed offset
shiftg built from the global k-point, band and spinor indices: the seed is
k-point-dependent, so distinct k-points are not forced to receive the same
pattern, and receive the same pattern only when the generator happens to
repeat across their offsets. -/
theorem C4_seeded_kpt_dependence (genR : Nat → Nat → Rat)
    (genC : Nat → Nat → Rat × Rat) (prngR : Nat → Rat) (prngC : Nat → Rat × Rat)
    (s : SPARC) (h : s.dmcomm_null = false) (hc : s.elecgs_Count = 0)
    (hg : s.isGammaPoint = 0) (hf : s.FixRandSeed = 1)
    (k n sp o : Nat) (hk : k < s.Nkpts_kptcomm) (hn : n < s.Nband_bandcomm)
    (hsp : sp < s.Nspinor_spincomm) (ho : o < s.Nd_d_dmcomm) :
    (Init_orbital genR genC prngR prngC s).Xorb_kpt
        (k * sizek s + n * DMndsp s + sp * s.Nd_d_dmcomm + o) =
      genC (shiftg s k n sp) o := by
  have hX : (Init_orbital genR genC prngR prngC s).Xorb_kpt =
      fillAllKpt genC s (fun _ => (0, 0)) := by
    simp [Init_orbital, h, hc, hg, hf]
  rw [hX]
  exact fillAllKpt_value genC s _ k n sp o hk hn hsp ho

/-- The Horner loop of poly in bessel.c: starting from the accumulator ans,
repeat ans = ans times x plus cof[i] for i from m minus 1 down to 0. -/
def polyAux (cof : Nat → Rat) (x : Rat) : Rat → Nat → Rat
  | ans, 0 => ans
  | ans, Nat.succ i => polyAux cof x (ans * x + cof i) i

/-- poly of bessel.c lines 6-13: evaluate the polynomial with coefficients
cof[0] up to cof[n] at x by the Horner rule, starting from cof[n]. -/
def poly (cof : Nat → Rat) (n : Nat) (x : Rat) : Rat := polyAux cof x (cof n) n

/-- Helper: closed form of the Horner loop. -/
theorem polyAux_eq (cof : Nat → Rat) (x : Rat) (m : Nat) : ∀ ans : Rat,
    polyAux cof x ans m =
      ans * x ^ m + Finset.sum (Finset.range m) fun i => cof i * x ^ i := by
  induction m with
  | zero =>
    intro ans
    simp [polyAux]
  | succ m ih =>
    intro ans
    show polyAux cof x (ans * x + cof m) m = _
    rw [ih (ans * x + cof m), Finset.sum_range_succ]
    ring

/-- C10: poly evaluates its argument polynomial: for every coefficient
stream, degree bound n and point x, poly cof n x equals the sum of
cof[i] times x to the i for i from 0 to n. -/
theorem C10_poly_horner (cof : Nat → Rat) (n : Nat) (x : Rat) :
    poly cof n x = Finset.sum (Finset.range (n + 1)) fun i => cof i * x ^ i := by
  unfold poly
  rw [polyAux_eq cof x n (cof n), Finset.sum_range_succ]
  ring

/-- A concrete base state used to instantiate the theorems: a participating
process with one local node, one atom, all counters zero and all arrays
zero. -/
def baseS : SPARC where
  dmcomm_phi_null := false
  dmcomm_null := false
  Nd_d := 1
  n_atom := 1
  elecgs_Count := 0
  StressCount := 0
  MDCount := 0
  MDFlag := 0
  RelaxFlag := 0
  CyclixFlag := 0
  spin_typ := 0
  FixRandSeed := 0
  isGammaPoint := 1
  MD_dt := 0
  Relax_fac := 0
  dV := 1
  PosCharge := 1
  xc_rhotol := 0
  electronDens := fun _ => 0
  electronDens_at := fun _ => 0
  mag := fun _ => 0
  mag_at := fun _ => 0
  delectronDens := fun _ => 0
  delectronDens_0dt := fun _ => 0
  delectronDens_1dt := fun _ => 0
  delectronDens_2dt := fun _ => 0
  atom_pos := fun _ => 0
  atom_pos_nm := fun _ => 0
  atom_pos_0dt := fun _ => 0
  atom_pos_1dt := fun _ => 0
  atom_pos_2dt := fun _ => 0
  ion_vel := fun _ => 0
  d := fun _ => 0
  mvAtmConstraint := fun _ => 1
  Intgwt_phi := fun _ => 1
  Nd_d_dmcomm := 1
  Nspinor_spincomm := 1
  Nband_bandcomm := 1
  Nkpts_kptcomm := 1
  Nd := 1
  Nspinor := 1
  Nstates := 1
  kpt_start_indx := 0
  band_start_indx := 0
  spinor_start_indx := 0
  Xorb := fun _ => 0
  Xorb_alloc := false
  Yorb_alloc := false
  Xorb_kpt := fun _ => (0, 0)
  Xorb_kpt_alloc := false
  Yorb_kpt_alloc := false

/-- Concrete state with 3 accumulated net solves. -/
def exW1 : SPARC := { baseS with elecgs_Count := 3 }

/-- C1 witness: the extrapolation formula instantiated at a concrete
participating state with 3 net solves, node 0, and a concrete solver. -/
theorem C1_witness :
    exW1.dmcomm_phi_null = false ∧ 3 ≤ exW1.elecgs_Count - exW1.StressCount ∧
    (0 : Nat) < exW1.Nd_d ∧
    (elecDensExtrapolation lsq0 exW1).delectronDens 0 =
      (1 + (lsq0 (FtFmat exW1) (Ftfvec exW1)).1) *
          (elecDensExtrapolation lsq0 exW1).delectronDens_0dt 0
        + ((lsq0 (FtFmat exW1) (Ftfvec exW1)).2 - (lsq0 (FtFmat exW1) (Ftfvec exW1)).1) *
          (elecDensExtrapolation lsq0 exW1).delectronDens_1dt 0
        - (lsq0 (FtFmat exW1) (Ftfvec exW1)).2 *
          (elecDensExtrapolation lsq0 exW1).delectronDens_2dt 0 :=
  ⟨rfl, by decide, by decide,
    (C1_extrapolation_formula lsq0 exW1 rfl).2 (by decide) 0 (by decide)⟩

/-- Concrete state on the second net step with 4 local nodes of density 1
each and target charge 2. -/
def exW2 : SPARC :=
  { baseS with
      Nd_d := 4
      elecgs_Count := 1
      PosCharge := 2
      electronDens := fun _ => 1 }

/-- C2 witness: the normalization theorem instantiated at a one-process
group; the pre-scaling integral is 4 and the integral after the collective
step is the target charge 2. -/
theorem C2_witness :
    groupIntegral [exW2] ≠ 0 ∧
    ((runGroupNormalize magnorm0 [exW2]).map fun q =>
        localIntegral q q.electronDens).sum = 2 := by
  have hnz : groupIntegral [exW2] ≠ 0 := by
    norm_num [groupIntegral, localIntegral, stagedDens, exW2, baseS,
      Finset.sum_range_succ]
  refine ⟨hnz, C2_normalization magnorm0 [exW2] 2 ?_ ?_ ?_ hnz⟩
  · intro p hp
    rw [List.mem_singleton] at hp
    subst hp
    rfl
  · intro p hp
    rw [List.mem_singleton] at hp
    subst hp
    decide
  · intro p hp
    rw [List.mem_singleton] at hp
    subst hp
    rfl

/-- Concrete state whose pending deviation makes the extrapolated sum
negative at node 0, with floor one quarter. -/
def exW3 : SPARC :=
  { baseS with
      elecgs_Count := 3
      MDFlag := 1
      xc_rhotol := 1 / 4
      delectronDens := fun _ => -1 }

/-- C3 witness: the amended clamp theorem instantiated at a concrete state
whose node 0 sum is minus 1: the clamp stores exactly the floor there and
the staged value is nonnegative. -/
theorem C3_witness :
    3 ≤ exW3.elecgs_Count - exW3.StressCount ∧ exW3.MDFlag = 1 ∧
    0 ≤ exW3.xc_rhotol ∧ (0 : Nat) < exW3.Nd_d ∧
    ((exW3.electronDens_at 0 + exW3.delectronDens 0 < 0 →
        stagedDens exW3 0 = exW3.xc_rhotol) ∧
      (0 ≤ exW3.electronDens_at 0 + exW3.delectronDens 0 →
        stagedDens exW3 0 = exW3.electronDens_at 0 + exW3.delectronDens 0) ∧
      0 ≤ stagedDens exW3 0) :=
  ⟨by decide, rfl, by norm_num [exW3, baseS], by decide,
    C3_clamp_amended exW3 (by decide) (Or.inl rfl)
      (by norm_num [exW3, baseS]) 0 (by decide)⟩

/-- C4 witness: the amended seeded-offset theorem instantiated at the
concrete two-k-point state and generator of the counterexample, at global
k-point 1. -/
theorem C4_witness :
    exC4.dmcomm_null = false ∧ exC4.elecgs_Count = 0 ∧ exC4.isGammaPoint = 0 ∧
    exC4.FixRandSeed = 1 ∧ 1 < exC4.Nkpts_kptcomm ∧
    (Init_orbital genR0 genC4 prngR0 prngC0 exC4).Xorb_kpt
        (1 * sizek exC4 + 0 * DMndsp exC4 + 0 * exC4.Nd_d_dmcomm + 0) =
      genC4 (shiftg exC4 1 0 0) 0 :=
  ⟨rfl, rfl, rfl, rfl, by decide,
    C4_seeded_kpt_dependence genR0 genC4 prngR0 prngC0 exC4 rfl rfl rfl rfl
      1 0 0 0 (by decide) (by decide) (by decide) (by decide)⟩

/-- Concrete spin-polarized state on the second net step. -/
def exW5 : SPARC :=
  { baseS with
      elecgs_Count := 1
      spin_typ := 1
      electronDens := fun _ => 1
      mag := fun _ => 1 }

/-- C5 witness: the exact spin-channel identities instantiated at a
concrete collinear state, node 0. -/
theorem C5_witness :
    exW5.dmcomm_phi_null = false ∧ exW5.elecgs_Count - exW5.StressCount ≠ 0 ∧
    exW5.spin_typ ≠ 0 ∧ (0 : Nat) < exW5.Nd_d ∧
    ((Init_electronDensity magnorm0 0 exW5).electronDens (exW5.Nd_d + 0)
        + (Init_electronDensity magnorm0 0 exW5).electronDens (2 * exW5.Nd_d + 0)
        = (Init_electronDensity magnorm0 0 exW5).electronDens 0 ∧
      (Init_electronDensity magnorm0 0 exW5).electronDens (exW5.Nd_d + 0)
        - (Init_electronDensity magnorm0 0 exW5).electronDens (2 * exW5.Nd_d + 0)
        = exW5.mag 0) :=
  ⟨rfl, by decide, by decide, by decide,
    C5_spin_exact magnorm0 0 exW5 rfl (by decide) (by decide) 0 (by decide)⟩

/-- Concrete MD-mode state at the first MD step. -/
def exW6 : SPARC := { baseS with MDFlag := 1, MDCount := 1 }

/-- C6 witness: the position-prediction rule instantiated at a concrete
MD-mode state on its first eligible step, coordinate 0. -/
theorem C6_witness :
    exW6.dmcomm_phi_null = false ∧ exW6.MDFlag = 1 ∧
    (0 : Nat) < 3 * exW6.n_atom ∧
    (elecDensExtrapolation lsq0 exW6).atom_pos_nm 0 =
      (if exW6.MDCount = 1 then exW6.atom_pos 0
       else exW6.atom_pos_nm 0 + exW6.MD_dt * exW6.ion_vel 0) :=
  ⟨rfl, rfl, by decide,
    (C6_position_prediction lsq0 exW6 rfl).1 rfl 0 (by decide)⟩

/-- Concrete participating state on a later structural step. -/
def exW7 : SPARC := { baseS with elecgs_Count := 5 }

/-- C7 witness: on a later structural step Init_orbital leaves the concrete
state untouched: no allocation, no write. -/
theorem C7_witness :
    exW7.dmcomm_null = false ∧ exW7.elecgs_Count ≠ 0 ∧
    Init_orbital genR0 genC0 prngR0 prngC0 exW7 = exW7 :=
  ⟨rfl, by decide, (C7_alloc_once genR0 genC0 prngR0 prngC0 exW7 rfl).1 (by decide)⟩

/-- Concrete non-participating state (dmcomm_phi is MPI_COMM_NULL). -/
def exW8 : SPARC := { baseS with dmcomm_phi_null := true }

/-- C8 witness: the idle return instantiated at a concrete non-participating
state. -/
theorem C8_witness :
    exW8.dmcomm_phi_null = true ∧ elecDensExtrapolation lsq0 exW8 = exW8 :=
  ⟨rfl, C8_idle_process_noop lsq0 exW8 rfl⟩

/-- Concrete unpolarized state on the second net step with density 1. -/
def exW9 : SPARC :=
  { baseS with
      elecgs_Count := 1
      electronDens := fun _ => 1 }

/-- C9 witness: the frame theorem instantiated at a concrete later-step
state: every array other than electronDens is untouched and, with both mode
flags off, node 0 is purely rescaled. -/
theorem C9_witness :
    exW9.dmcomm_phi_null = false ∧ exW9.elecgs_Count - exW9.StressCount ≠ 0 ∧
    ((Init_electronDensity magnorm0 0 exW9).mag = exW9.mag ∧
      (Init_electronDensity magnorm0 0 exW9).electronDens_at = exW9.electronDens_at ∧
      (Init_electronDensity magnorm0 0 exW9).delectronDens = exW9.delectronDens ∧
      (Init_electronDensity magnorm0 0 exW9).delectronDens_0dt = exW9.delectronDens_0dt ∧
      (Init_electronDensity magnorm0 0 exW9).delectronDens_1dt = exW9.delectronDens_1dt ∧
      (Init_electronDensity magnorm0 0 exW9).delectronDens_2dt = exW9.delectronDens_2dt ∧
      (Init_electronDensity magnorm0 0 exW9).atom_pos = exW9.atom_pos ∧
      (Init_electronDensity magnorm0 0 exW9).atom_pos_nm = exW9.atom_pos_nm ∧
      (Init_electronDensity magnorm0 0 exW9).atom_pos_0dt = exW9.atom_pos_0dt ∧
      (Init_electronDensity magnorm0 0 exW9).atom_pos_1dt = exW9.atom_pos_1dt ∧
      (Init_electronDensity magnorm0 0 exW9).atom_pos_2dt = exW9.atom_pos_2dt ∧
      (exW9.spin_typ = 0 → ∀ j, exW9.Nd_d ≤ j →
        (Init_electronDensity magnorm0 0 exW9).electronDens j = exW9.electronDens j) ∧
      (∀ j, 3 * exW9.Nd_d ≤ j →
        (Init_electronDensity magnorm0 0 exW9).electronDens j = exW9.electronDens j) ∧
      (exW9.MDFlag ≠ 1 → exW9.RelaxFlag ≠ 1 → ∀ i, i < exW9.Nd_d →
        (Init_electronDensity magnorm0 0 exW9).electronDens i =
          exW9.electronDens i *
            (exW9.PosCharge / (localIntegral exW9 exW9.electronDens + 0)))) :=
  ⟨rfl, by decide, C9_frame_later_step magnorm0 0 exW9 rfl (by decide)⟩
